import Mathlib

/-!
Verification development for the Outscale dynamic-inventory plugin
(`plugins/inventory/inventory.py`).  The plugin's `parse` method resolves
options from a YAML config dict and the environment, fetches VM records
through a paginated `ReadVms` API, and for each record derives a hostname,
an `ansible_host` address, a set of `outscale_*` variables and a set of
group memberships, all written into the Ansible inventory sink.

The embedding below mirrors the Python line by line: Python `None` and
missing dict keys become `Option`, Python truthiness on strings becomes
`falsy`, the per-record sink mutations become an explicit `Event` trace,
and the two Python exceptions that can escape the per-record loop
(`AnsibleError` and `UnboundLocalError`) become a `RunError` value in
`Except`.
-/

namespace OscInventory

/-- Python truthiness of a string-or-None value: `None` and the empty
string are falsy, every other string is truthy. -/
def falsy : Option String → Bool
  | none => true
  | some s => s.isEmpty

/-- Python `str()` / f-string rendering of a string-or-None value. -/
def pyStr : Option String → String
  | none => "None"
  | some s => s

/-- Python `x or y` on string-or-None values: returns `y` when `x` is
falsy, else `x`. -/
def pyOr (x y : Option String) : Option String :=
  if falsy x then y else x

/-- State of one key in the YAML config dict: absent, present with value
`null`, or present with a string value. -/
inductive CVal
  | absent
  | null
  | str (s : String)
deriving DecidableEq, Repr

/-- Python `config.get(key, default)`: the default (a string) is returned
only when the key is absent; an explicit `null` comes back as `None`. -/
def cgetD (v : CVal) (default : String) : Option String :=
  match v with
  | .absent => some default
  | .null => none
  | .str s => some s

/-- Line 103: `region = config.get('region', 'eu-west-2') or
os.getenv('OSC_REGION')`.  `envRegion` is `os.getenv('OSC_REGION')`. -/
def resolveRegion (cfgRegion : CVal) (envRegion : Option String) : Option String :=
  pyOr (cgetD cfgRegion "eu-west-2") envRegion

/-- Line 105: `hostname_variable = config.get('hostname_variable', 'tag_Name')`. -/
def resolveHostnameVariable (c : CVal) : Option String :=
  cgetD c "tag_Name"

/-- Line 106: `ip_preference = config.get('ip_preference', 'public_or_private')`. -/
def resolveIpPreference (c : CVal) : Option String :=
  cgetD c "public_or_private"

/-- The `default` declared for the `ip_preference` option in the
DOCUMENTATION block (lines 47-51). -/
def documentedIpPreferenceDefault : String := "prefer_public"

/-- One tag of a VM record: the `Key` entry (always present) and the
`Value` entry (may be absent, hence `Option`). -/
structure Tag where
  key : String
  value : Option String
deriving DecidableEq, Repr

/-- One VM record as consumed by `parse`: each field models the
corresponding `vm.get(...)` access (absent or null becomes `none`).
`subregionName` models `vm.get('Placement', {}).get('SubregionName')`. -/
structure Vm where
  vmId : Option String
  state : Option String
  vmType : Option String
  publicIp : Option String
  privateIp : Option String
  subregionName : Option String
  tags : List Tag
deriving DecidableEq, Repr

/-- Lookup in a Python-dict association list: first entry with the key
(the list is kept key-unique by `alistInsert`). -/
def alistGet {α β : Type} [DecidableEq α] (k : α) : List (α × β) → Option β
  | [] => none
  | p :: m => if p.1 = k then some p.2 else alistGet k m

/-- Python dict assignment `d[k] = v` on an association list: overwrite
in place when the key exists (insertion order preserved, as in a Python
dict), otherwise append. -/
def alistInsert {α β : Type} [DecidableEq α] (m : List (α × β)) (k : α) (v : β) :
    List (α × β) :=
  if m.any (fun p => p.1 = k) then
    m.map (fun p => if p.1 = k then (k, v) else p)
  else m ++ [(k, v)]

/-- Lines 152, 180, 196: the dict comprehension
`{tag['Key']: tag['Value'] for tag in vm.get('Tags', []) if 'Value' in tag}` —
left-to-right insertion, entries without a `Value` dropped. -/
def flattenTags (ts : List Tag) : List (String × String) :=
  ts.foldl (fun m t =>
    match t.value with
    | some v => alistInsert m t.key v
    | none => m) []

/-- One page of a `ReadVms` response: the `Vms` batch (absent key modelled
as `[]`) and the optional `NextPageToken`. -/
structure Page where
  vms : List Vm
  nextPageToken : Option String
deriving DecidableEq, Repr

/-- Lines 129-140: the pagination loop, over the sequence of pages the
provider returns to the successive calls.  Returns the accumulated record
list and the number of `ReadVms` calls made; `none` when the loop asks
for a call beyond the supplied page sequence.  The loop breaks exactly
when `if not next_token` holds, i.e. when the token is falsy. -/
def fetchVms : List Page → Option (List Vm × Nat)
  | [] => none
  | p :: rest =>
    if falsy p.nextPageToken then some (p.vms, 1)
    else
      match fetchVms rest with
      | some (vs, n) => some (p.vms ++ vs, n + 1)
      | none => none

/-- A Python value stored in an inventory variable by this plugin:
a string, `None`, or a tag dict. -/
inductive Val
  | str (s : String)
  | pyNone
  | dict (m : List (String × String))
deriving DecidableEq, Repr

/-- Embed a string-or-None field value. -/
def optVal : Option String → Val
  | none => .pyNone
  | some s => .str s

/-- The error that aborts `parse`: an `AnsibleError` raised by the code,
or Python's `UnboundLocalError` on reading a never-assigned local. -/
inductive RunError
  | ansibleError (msg : String)
  | unboundLocalError (varName : String)
deriving DecidableEq, Repr

/-- One mutation of (or external call on) the inventory sink, in program
order.  The three `Constructable` calls are external collaborators: the
events record the arguments they receive. -/
inductive Event
  | addHost (hostname : String)
  | setVariable (hostname varName : String) (value : Val)
  | addGroup (group : String)
  | addChild (group hostname : String)
  | setCompositeVars (compose : List (String × String))
      (hostVars : List (String × Val)) (hostname : String) (strict : Bool)
  | addHostToComposedGroups (groups : List (String × String))
      (hostVars : List (String × Val)) (hostname : String) (strict : Bool)
  | addHostToKeyedGroups (keyedGroups : List String)
      (hostVars : List (String × Val)) (hostname : String) (strict : Bool)
deriving DecidableEq, Repr

/-- True for the three external `Constructable` calls (lines 190-192). -/
def isConstructableEvent : Event → Bool
  | .setCompositeVars _ _ _ _ => true
  | .addHostToComposedGroups _ _ _ _ => true
  | .addHostToKeyedGroups _ _ _ _ => true
  | _ => false

/-- True for the group mutations of the `group_by` dimension logic
(lines 194-222). -/
def isGroupMutationEvent : Event → Bool
  | .addGroup _ => true
  | .addChild _ _ => true
  | _ => false

/-- The option values of one run as resolved at lines 101-113, consumed
by the per-record loop. -/
structure ResolvedConfig where
  region : Option String
  hostname_variable : Option String
  ip_preference : Option String
  group_by : List String
  compose : List (String × String)
  groups : List (String × String)
  keyed_groups : List String
  strict : Bool
deriving DecidableEq, Repr

/-- Single-character Python `str.replace(c, d)` on the character list of
a string (a one-character pattern matches exactly the occurrences of that
character). -/
def replaceChar (c d : Char) (l : List Char) : List Char :=
  l.map (fun x => if x = c then d else x)

/-- Line 197: `str(value or '').replace(":", "_").replace("/", "_").replace(" ", "_")`
(the argument is already a string, so `str(value or '')` is the value
itself, with empty staying empty). -/
def sanitizeTagValue (v : String) : String :=
  String.mk (replaceChar ' ' '_' (replaceChar '/' '_' (replaceChar ':' '_' v.data)))

/-- Lines 151-153 for the `tag_Name` strategy:
`tags.get('Name', vm.get('VmId'))` over the flattened tag dict. -/
def tagNameHostname (vm : Vm) : Option String :=
  match alistGet "Name" (flattenTags vm.tags) with
  | some v => some v
  | none => vm.vmId

/-- Lines 144-153: the hostname if/elif chain.  No branch matches an
unrecognized `hostname_variable`, so the later `if not hostname` read
(line 154) raises `UnboundLocalError` — modelled as the error case. -/
def chooseHostname (cfg : ResolvedConfig) (vm : Vm) : Except RunError (Option String) :=
  if cfg.hostname_variable = some "vm_id" then .ok vm.vmId
  else if cfg.hostname_variable = some "public_ip" then .ok vm.publicIp
  else if cfg.hostname_variable = some "private_ip" then .ok vm.privateIp
  else if cfg.hostname_variable = some "tag_Name" then .ok (tagNameHostname vm)
  else .error (.unboundLocalError "hostname")

/-- The error message of line 170, for a given configuration. -/
def invalidIpMsg (cfg : ResolvedConfig) : String :=
  "Invalid parameter value for ip_preference: " ++ pyStr cfg.ip_preference

/-- Lines 160-170: select `ansible_host` from `ip_preference`; any other
value raises `AnsibleError` (f-string rendering of the value). -/
def selectAnsibleHost (cfg : ResolvedConfig) (vm : Vm) : Except RunError (Option String) :=
  if cfg.ip_preference = some "public_only" then
    .ok (if falsy vm.publicIp then none else vm.publicIp)
  else if cfg.ip_preference = some "private_only" then
    .ok (if falsy vm.privateIp then none else vm.privateIp)
  else if cfg.ip_preference = some "prefer_public" then
    .ok (if falsy vm.publicIp then vm.privateIp else vm.publicIp)
  else
    .error (.ansibleError (invalidIpMsg cfg))

/-- Lines 172-173: `if ansible_host: inventory.set_variable(...)`. -/
def ansibleHostEvents (ah : Option String) (hostname : String) : List Event :=
  if falsy ah then [] else [.setVariable hostname "ansible_host" (optVal ah)]

/-- Lines 176-180: the five fixed attribute variables. -/
def attrVarEvents (vm : Vm) (hostname : String) : List Event :=
  [ .setVariable hostname "outscale_vm_id" (optVal vm.vmId),
    .setVariable hostname "outscale_state" (optVal vm.state),
    .setVariable hostname "outscale_vm_type" (optVal vm.vmType),
    .setVariable hostname "outscale_subregion" (optVal vm.subregionName),
    .setVariable hostname "outscale_tags" (.dict (flattenTags vm.tags)) ]

/-- The inventory sink: hosts, per-host variables, groups and
group-membership edges. -/
structure Sink where
  hosts : List String
  vars : List ((String × String) × Val)
  groups : List String
  children : List (String × String)
deriving DecidableEq, Repr

def emptySink : Sink := Sink.mk [] [] [] []

/-- Apply one sink mutation.  The three `Constructable` calls are
external and leave the modelled sink state unchanged. -/
def applyEvent (s : Sink) : Event → Sink
  | .addHost h =>
      if h ∈ s.hosts then s else Sink.mk (s.hosts ++ [h]) s.vars s.groups s.children
  | .setVariable h n v =>
      Sink.mk s.hosts (alistInsert s.vars (h, n) v) s.groups s.children
  | .addGroup g =>
      if g ∈ s.groups then s else Sink.mk s.hosts s.vars (s.groups ++ [g]) s.children
  | .addChild g h =>
      Sink.mk s.hosts s.vars s.groups (s.children ++ [(g, h)])
  | .setCompositeVars _ _ _ _ => s
  | .addHostToComposedGroups _ _ _ _ => s
  | .addHostToKeyedGroups _ _ _ _ => s

def applyEvents (s : Sink) (es : List Event) : Sink :=
  es.foldl applyEvent s

/-- Python `inventory.get_host(hostname).get_vars().get(var)`: a stored
`None` and an absent variable are both Python `None`. -/
def pyGetVar (s : Sink) (hostname varName : String) : Val :=
  match alistGet (hostname, varName) s.vars with
  | some v => v
  | none => .pyNone

/-- Line 184: the fixed list of variable names read back. -/
def hostVarNames : List String :=
  ["ansible_host", "outscale_vm_id", "outscale_state", "outscale_vm_type",
   "outscale_subregion", "outscale_tags"]

/-- Lines 183-187: build `host_vars` from the sink, keeping only values
that are not Python `None`. -/
def buildHostVars (s : Sink) (hostname : String) : List (String × Val) :=
  hostVarNames.foldl (fun acc var =>
    let value := pyGetVar s hostname var
    if value = .pyNone then acc else acc ++ [(var, value)]) []

/-- The sink mutations the Mapper performs for one record before the
`Constructable` calls: add the host, maybe set `ansible_host`, set the
five attribute variables. -/
def mapperEvents (vm : Vm) (hostname : String) (ah : Option String) : List Event :=
  [Event.addHost hostname] ++ ansibleHostEvents ah hostname ++ attrVarEvents vm hostname

/-- The attribute map handed to the `Constructable` calls: `host_vars`
read back from the sink right after the Mapper's writes for this record. -/
def mapperHostVars (sink : Sink) (vm : Vm) (hostname : String) (ah : Option String) :
    List (String × Val) :=
  buildHostVars (applyEvents sink (mapperEvents vm hostname ah)) hostname

/-- Lines 189-192: the three `Constructable` calls, with the arguments
they receive. -/
def constructableEvents (cfg : ResolvedConfig) (hostname : String)
    (hv : List (String × Val)) : List Event :=
  [ .setCompositeVars cfg.compose hv hostname cfg.strict,
    .addHostToComposedGroups cfg.groups hv hostname cfg.strict,
    .addHostToKeyedGroups cfg.keyed_groups hv hostname cfg.strict ]

/-- Lines 195-200: the `tags` grouping dimension. -/
def tagGroupEvents (vm : Vm) (hostname : String) : List Event :=
  ((flattenTags vm.tags).map (fun kv =>
    [Event.addGroup ("tag_" ++ kv.1 ++ "_" ++ sanitizeTagValue kv.2),
     Event.addChild ("tag_" ++ kv.1 ++ "_" ++ sanitizeTagValue kv.2) hostname])).flatten

/-- Lines 194-222: the five `group_by` dimensions, in program order. -/
def dimGroupEvents (cfg : ResolvedConfig) (vm : Vm) (hostname : String) : List Event :=
  (if "tags" ∈ cfg.group_by then tagGroupEvents vm hostname else []) ++
  (if "region" ∈ cfg.group_by ∧ falsy cfg.region = false then
    [Event.addGroup (pyStr cfg.region), Event.addChild (pyStr cfg.region) hostname]
   else []) ++
  (if "subregion" ∈ cfg.group_by ∧ falsy vm.subregionName = false then
    [Event.addGroup (pyStr vm.subregionName),
     Event.addChild (pyStr vm.subregionName) hostname]
   else []) ++
  (if "vm_type" ∈ cfg.group_by ∧ falsy vm.vmType = false then
    [Event.addGroup ("vm_type_" ++ pyStr vm.vmType),
     Event.addChild ("vm_type_" ++ pyStr vm.vmType) hostname]
   else []) ++
  (if "state" ∈ cfg.group_by ∧ falsy vm.state = false then
    [Event.addGroup ("state_" ++ pyStr vm.state),
     Event.addChild ("state_" ++ pyStr vm.state) hostname]
   else [])

/-- Lines 143-222: processing of one VM record, given the sink state at
its start.  `if not hostname: continue` is the silent skip; `add_host`
runs before the `ip_preference` check, so on an invalid policy the trace
holds the `addHost` mutation and the error. -/
def processVm (cfg : ResolvedConfig) (sink : Sink) (vm : Vm) :
    List Event × Except RunError Unit :=
  match chooseHostname cfg vm with
  | .error e => ([], .error e)
  | .ok hn =>
    if falsy hn then ([], .ok ())
    else
      let hostname := pyStr hn
      match selectAnsibleHost cfg vm with
      | .error e => ([Event.addHost hostname], .error e)
      | .ok ah =>
        let evs := mapperEvents vm hostname ah
        let hv := buildHostVars (applyEvents sink evs) hostname
        (evs ++ constructableEvents cfg hostname hv ++ dimGroupEvents cfg vm hostname,
         .ok ())

/-- The per-record loop over the fetched records: an error aborts the
run, keeping the sink mutations already made. -/
def processVms (cfg : ResolvedConfig) : Sink → List Vm → List Event × Except RunError Unit
  | _, [] => ([], .ok ())
  | sink, vm :: rest =>
    match processVm cfg sink vm with
    | (evs, .error e) => (evs, .error e)
    | (evs, .ok _) =>
      match processVms cfg (applyEvents sink evs) rest with
      | (evs2, r2) => (evs ++ evs2, r2)

/-- Specification-side characterization of "last value wins": the value
of the last tag with the given key among the tags that carry a `Value`
entry. -/
def lastTagValue (k : String) : List Tag → Option String
  | [] => none
  | t :: ts =>
    match lastTagValue k ts with
    | some v => some v
    | none => if t.key = k ∧ t.value.isSome then t.value else none

/-- A record whose chosen hostname source is truthy: the per-record loop
will call `add_host` for it. -/
def resolvable (cfg : ResolvedConfig) (vm : Vm) : Prop :=
  ∃ s, chooseHostname cfg vm = .ok (some s) ∧ s.isEmpty = false

/-- A record whose chosen hostname source is falsy: the per-record loop
silently skips it (line 154-155). -/
def skipped (cfg : ResolvedConfig) (vm : Vm) : Prop :=
  ∃ hn, chooseHostname cfg vm = .ok hn ∧ falsy hn = true

/-- A concrete record used to instantiate the theorems (the spec's
section-8 example record). -/
def exampleVm : Vm :=
  Vm.mk (some "i-1") (some "running") (some "t2") (some "1.2.3.4") none
    (some "eu-west-2a") [Tag.mk "Name" (some "web:1")]

/-- A concrete configuration with all defaults valid and every grouping
dimension enabled. -/
def exampleCfg : ResolvedConfig :=
  ResolvedConfig.mk (some "eu-west-2") (some "vm_id") (some "prefer_public")
    ["tags", "region", "subregion", "vm_type", "state"] [] [] [] false

/-- A concrete configuration whose `ip_preference` is the value the code
falls back to when the option is omitted. -/
def omittedIpCfg : ResolvedConfig :=
  ResolvedConfig.mk (some "eu-west-2") (some "vm_id") (some "public_or_private")
    ["tags", "region", "subregion", "vm_type", "state"] [] [] [] false

/-- A concrete configuration with an unrecognized hostname strategy. -/
def badHostnameCfg : ResolvedConfig :=
  ResolvedConfig.mk (some "eu-west-2") (some "bogus") (some "prefer_public")
    ["tags"] [] [] [] false

/-- A concrete record whose `vm_id` source is absent (skipped under the
`vm_id` strategy). -/
def emptyIdVm : Vm :=
  Vm.mk none (some "running") (some "t2") (some "1.2.3.4") none
    (some "eu-west-2a") []

/-- A concrete configuration using the `tag_Name` hostname strategy. -/
def tagNameCfg : ResolvedConfig :=
  ResolvedConfig.mk (some "eu-west-2") (some "tag_Name") (some "prefer_public")
    ["tags"] [] [] [] false

lemma alistGet_map_update {β : Type} (m : List (String × β)) (k k' : String) (v : β) :
    alistGet k (m.map (fun p => if p.1 = k' then (k', v) else p)) =
      if k = k' then (if m.any (fun p => p.1 = k') then some v else none)
      else alistGet k m := by
  induction m with
  | nil => simp [alistGet]
  | cons p m ih =>
    rw [List.map_cons, List.any_cons]
    by_cases hp : p.1 = k'
    · by_cases hk : k = k'
      · subst hk
        simp [alistGet, hp]
      · have hk'k : ¬(k' = k) := fun h => hk h.symm
        have hpk : ¬(p.1 = k) := fun h => hk (h.symm.trans hp)
        simp [alistGet, hp, hk, hk'k, hpk, ih]
    · by_cases hk : k = k'
      · subst hk
        have hd : (decide (p.1 = k)) = false := decide_eq_false hp
        cases hm : (m.any fun p => decide (p.1 = k)) with
        | false => simp [alistGet, hp, ih, hd, hm]
        | true => simp [alistGet, hp, ih, hd, hm]
      · simp [alistGet, hp, hk, ih]

lemma alistGet_append_single {β : Type} (m : List (String × β)) (k k' : String) (v : β) :
    m.any (fun p => p.1 = k') = false →
    alistGet k (m ++ [(k', v)]) = if k = k' then some v else alistGet k m := by
  induction m with
  | nil =>
    intro _
    by_cases hk : k = k'
    · subst hk
      simp [alistGet]
    · have hk'k : ¬(k' = k) := fun h => hk h.symm
      simp [alistGet, hk, hk'k]
  | cons p m ih =>
    intro hnone
    rw [List.any_cons] at hnone
    have hp : ¬(p.1 = k') := by
      intro h
      rw [h] at hnone
      simp at hnone
    have hm : m.any (fun p => p.1 = k') = false := by
      rcases h : m.any (fun p => p.1 = k') with _ | _
      · rfl
      · rw [h] at hnone
        simp at hnone
    by_cases hpk : p.1 = k
    · have hkk : ¬(k = k') := fun he => hp (hpk.trans he)
      simp [alistGet, hpk, hkk]
    · simp [alistGet, hpk, ih hm]

lemma alistGet_alistInsert {β : Type} (m : List (String × β)) (k k' : String) (v : β) :
    alistGet k (alistInsert m k' v) = if k = k' then some v else alistGet k m := by
  unfold alistInsert
  by_cases hany : (m.any fun p => p.1 = k') = true
  · rw [if_pos hany, alistGet_map_update, hany]
    by_cases hk : k = k' <;> simp [hk]
  · have hany' : (m.any fun p => p.1 = k') = false := by
      rcases h : m.any (fun p => p.1 = k') with _ | _
      · rfl
      · exact absurd h hany
    rw [if_neg hany]
    exact alistGet_append_single m k k' v hany'

lemma alistGet_flattenAux (k : String) (ts : List Tag) :
    ∀ m : List (String × String),
      alistGet k (ts.foldl (fun m t =>
        match t.value with
        | some v => alistInsert m t.key v
        | none => m) m) =
      match lastTagValue k ts with
      | some v => some v
      | none => alistGet k m := by
  induction ts with
  | nil => intro m; simp [lastTagValue]
  | cons t ts ih =>
    intro m
    rw [List.foldl_cons, ih]
    rcases hl : lastTagValue k ts with _ | v
    · rcases hv : t.value with _ | v'
      · simp [lastTagValue, hl, hv]
      · simp only [lastTagValue, hl, hv, alistGet_alistInsert]
        by_cases hk : k = t.key
        · simp [hk, Option.isSome]
        · have htk : ¬(t.key = k) := fun h => hk h.symm
          simp [hk, htk]
    · simp [lastTagValue, hl]

/-- The flattened tag dict looks up to the last valued tag with the key. -/
lemma alistGet_flattenTags (k : String) (ts : List Tag) :
    alistGet k (flattenTags ts) = lastTagValue k ts := by
  have h := alistGet_flattenAux k ts []
  rw [flattenTags] at *
  rcases hl : lastTagValue k ts with _ | v <;> simp [hl] at h <;> simp [h, alistGet]

lemma lastTagValue_none (k : String) (ts : List Tag)
    (h : ∀ t ∈ ts, t.key = k → t.value = none) : lastTagValue k ts = none := by
  induction ts with
  | nil => rfl
  | cons t ts ih =>
    rw [lastTagValue, ih (fun t' ht' => h t' (List.mem_cons_of_mem _ ht'))]
    by_cases hk : t.key = k
    · simp [hk, h t (List.mem_cons_self _ _) hk]
    · simp [hk]

lemma flattenAux_nodup (ts : List Tag) :
    ∀ m : List (String × String),
      (∀ t ∈ ts, m.any (fun p => p.1 = t.key) = false) →
      (ts.map Tag.key).Nodup →
      ts.foldl (fun m t =>
        match t.value with
        | some v => alistInsert m t.key v
        | none => m) m =
        m ++ ts.filterMap (fun t => t.value.map (fun v => (t.key, v))) := by
  induction ts with
  | nil => intro m _ _; simp
  | cons t ts ih =>
    intro m hm hnd
    rw [List.map_cons, List.nodup_cons] at hnd
    rw [List.foldl_cons]
    rcases hv : t.value with _ | v
    · simp only [hv]
      rw [ih m (fun t' ht' => hm t' (List.mem_cons_of_mem _ ht')) hnd.2]
      simp [List.filterMap_cons, hv]
    · simp only [hv]
      have hins : alistInsert m t.key v = m ++ [(t.key, v)] := by
        unfold alistInsert
        rw [if_neg (by simp [hm t (List.mem_cons_self _ _)])]
      rw [hins, ih (m ++ [(t.key, v)]) ?_ hnd.2]
      · simp [List.filterMap_cons, hv]
      · intro t' ht'
        have h1 : m.any (fun p => p.1 = t'.key) = false :=
          hm t' (List.mem_cons_of_mem _ ht')
        have h2 : t.key ≠ t'.key := by
          intro he
          exact hnd.1 (he ▸ List.mem_map_of_mem Tag.key ht')
        simp [List.any_append, h1, h2]

/-- Flattening a tag list whose keys are already unique is the map of its
valued pairs. -/
lemma flattenTags_nodup (ts : List Tag) (hnd : (ts.map Tag.key).Nodup) :
    flattenTags ts = ts.filterMap (fun t => t.value.map (fun v => (t.key, v))) := by
  have h := flattenAux_nodup ts [] (by simp) hnd
  simpa [flattenTags] using h

lemma processVms_cons (cfg : ResolvedConfig) (sink : Sink) (vm : Vm) (rest : List Vm) :
    processVms cfg sink (vm :: rest) =
      match processVm cfg sink vm with
      | (evs, .error e) => (evs, .error e)
      | (evs, .ok _) =>
        match processVms cfg (applyEvents sink evs) rest with
        | (evs2, r2) => (evs ++ evs2, r2) := rfl

lemma processVm_skip (cfg : ResolvedConfig) (sink : Sink) (vm : Vm) (hn : Option String)
    (h : chooseHostname cfg vm = .ok hn) (hf : falsy hn = true) :
    processVm cfg sink vm = ([], .ok ()) := by
  unfold processVm
  rw [h]
  simp [hf]

lemma selectAnsibleHost_invalid (cfg : ResolvedConfig) (vm : Vm)
    (h1 : cfg.ip_preference ≠ some "public_only")
    (h2 : cfg.ip_preference ≠ some "private_only")
    (h3 : cfg.ip_preference ≠ some "prefer_public") :
    selectAnsibleHost cfg vm = .error (.ansibleError (invalidIpMsg cfg)) := by
  unfold selectAnsibleHost
  rw [if_neg h1, if_neg h2, if_neg h3]

lemma processVm_error_shape (cfg : ResolvedConfig) (sink : Sink) (vm : Vm) (s : String)
    (e : RunError) (h : chooseHostname cfg vm = .ok (some s)) (hs : s.isEmpty = false)
    (he : selectAnsibleHost cfg vm = .error e) :
    processVm cfg sink vm = ([Event.addHost s], .error e) := by
  unfold processVm
  rw [h]
  simp [falsy, hs, he, pyStr]

lemma processVm_ok_shape (cfg : ResolvedConfig) (sink : Sink) (vm : Vm) (s : String)
    (ah : Option String) (h : chooseHostname cfg vm = .ok (some s))
    (hs : s.isEmpty = false) (hok : selectAnsibleHost cfg vm = .ok ah) :
    processVm cfg sink vm =
      (mapperEvents vm s ah ++ constructableEvents cfg s (mapperHostVars sink vm s ah) ++
        dimGroupEvents cfg vm s, .ok ()) := by
  unfold processVm mapperHostVars
  rw [h]
  simp [falsy, hs, hok, pyStr]

/-- C4: for a page sequence in which every page but the last carries a
truthy continuation token and the last page's token is absent or falsy,
the pagination loop of lines 129-140 terminates after exactly one
`ReadVms` call per page and accumulates the in-order concatenation of
all pages' record batches. -/
theorem spec_C4_pagination (init : List Page) (lastPage : Page)
    (hinit : ∀ p ∈ init, falsy p.nextPageToken = false)
    (hlast : falsy lastPage.nextPageToken = true) :
    fetchVms (init ++ [lastPage]) =
      some ((((init ++ [lastPage]).map Page.vms).flatten), (init ++ [lastPage]).length) := by
  induction init with
  | nil => simp [fetchVms, hlast]
  | cons p ps ih =>
    have hp : falsy p.nextPageToken = false := hinit p (by simp)
    have ihh := ih (fun q hq => hinit q (by simp [hq]))
    simp [fetchVms, hp, ihh]

/-- Witness for C4 at a concrete two-page sequence. -/
theorem spec_C4_pagination_witness :
    (∀ p ∈ [Page.mk [exampleVm] (some "tok")], falsy p.nextPageToken = false) ∧
    falsy (Page.mk ([] : List Vm) none).nextPageToken = true ∧
    fetchVms [Page.mk [exampleVm] (some "tok"), Page.mk [] none] =
      some ([exampleVm], 2) := by
  refine ⟨by decide, rfl, ?_⟩
  have h := spec_C4_pagination [Page.mk [exampleVm] (some "tok")] (Page.mk [] none)
    (by decide) rfl
  simpa using h

/-- C8: the region env fallback is dead when the config omits the option.
`config.get('region', 'eu-west-2')` (line 103) returns the truthy default
whenever the key is absent, so `or os.getenv('OSC_REGION')` never fires:
with the config omitting `region` and `OSC_REGION=us-east-2`, the
resolved region is the default, not the environment value — contradicting
the DOCUMENTATION block, which declares `OSC_REGION` as a source for the
`region` option. -/
theorem spec_C8_region_env_dead :
    resolveRegion CVal.absent (some "us-east-2") = some "eu-west-2" ∧
    resolveRegion CVal.absent (some "us-east-2") ≠ some "us-east-2" := by
  decide

/-- C9: an unrecognized `hostname_variable` leaves the `hostname` local
unassigned through the whole if/elif chain (lines 144-153), so the test
`if not hostname` (line 154) raises `UnboundLocalError` on the very first
record — an uncaught crash, not an `AnsibleError` and not a skip. -/
theorem spec_C9_unbound_local (cfg : ResolvedConfig) (sink : Sink) (vm : Vm)
    (rest : List Vm)
    (h1 : cfg.hostname_variable ≠ some "vm_id")
    (h2 : cfg.hostname_variable ≠ some "public_ip")
    (h3 : cfg.hostname_variable ≠ some "private_ip")
    (h4 : cfg.hostname_variable ≠ some "tag_Name") :
    processVms cfg sink (vm :: rest) = ([], .error (.unboundLocalError "hostname")) ∧
    ∀ msg, (processVms cfg sink (vm :: rest)).2 ≠ .error (.ansibleError msg) := by
  have hch : chooseHostname cfg vm = .error (.unboundLocalError "hostname") := by
    unfold chooseHostname
    rw [if_neg h1, if_neg h2, if_neg h3, if_neg h4]
  have hpv : processVm cfg sink vm = ([], .error (.unboundLocalError "hostname")) := by
    unfold processVm
    rw [hch]
  have hmain : processVms cfg sink (vm :: rest) =
      ([], .error (.unboundLocalError "hostname")) := by
    rw [processVms_cons, hpv]
  exact ⟨hmain, fun msg => by rw [hmain]; simp⟩

/-- Witness for C9: a config with `hostname_variable: bogus` crashes on
the first record. -/
theorem spec_C9_unbound_local_witness :
    processVms badHostnameCfg emptySink [exampleVm] =
      ([], .error (.unboundLocalError "hostname")) :=
  (spec_C9_unbound_local badHostnameCfg emptySink exampleVm []
    (by decide) (by decide) (by decide) (by decide)).1

/-- C10: the invalid-`ip_preference` abort is not atomic with the sink:
`add_host` (line 158) runs before the `ip_preference` check (lines
163-170), so the aborting record's trace holds exactly the `addHost`
mutation and no `set_variable` mutation at all. -/
theorem spec_C10_error_after_add_host (cfg : ResolvedConfig) (sink : Sink) (vm : Vm)
    (s : String)
    (hch : chooseHostname cfg vm = .ok (some s)) (hs : s.isEmpty = false)
    (h1 : cfg.ip_preference ≠ some "public_only")
    (h2 : cfg.ip_preference ≠ some "private_only")
    (h3 : cfg.ip_preference ≠ some "prefer_public") :
    processVm cfg sink vm = ([Event.addHost s], .error (.ansibleError (invalidIpMsg cfg))) ∧
    Event.addHost s ∈ (processVm cfg sink vm).1 ∧
    ∀ hh nn vv, Event.setVariable hh nn vv ∉ (processVm cfg sink vm).1 := by
  have he := selectAnsibleHost_invalid cfg vm h1 h2 h3
  have hmain := processVm_error_shape cfg sink vm s _ hch hs he
  refine ⟨hmain, ?_, ?_⟩
  · rw [hmain]; simp
  · intro hh nn vv; rw [hmain]; simp

/-- Witness for C10 at a concrete record and the fallback policy value. -/
theorem spec_C10_error_after_add_host_witness :
    processVm omittedIpCfg emptySink exampleVm =
      ([Event.addHost "i-1"],
       .error (.ansibleError "Invalid parameter value for ip_preference: public_or_private")) ∧
    Event.setVariable "i-1" "ansible_host" (Val.str "1.2.3.4") ∉
      (processVm omittedIpCfg emptySink exampleVm).1 := by
  have h := spec_C10_error_after_add_host omittedIpCfg emptySink exampleVm "i-1"
    rfl rfl (by decide) (by decide) (by decide)
  exact ⟨h.1, h.2.2 "i-1" "ansible_host" (Val.str "1.2.3.4")⟩

/-- C3: under each of the four hostname strategies, a record whose chosen
source is falsy (absent or empty) is skipped in full: the per-record body
performs zero sink mutations, raises no error regardless of the `strict`
flag (which is an arbitrary field of `cfg` here), and the loop continues
as if the record were not there. -/
theorem spec_C3_total_skip (cfg : ResolvedConfig) (sink : Sink) (vm : Vm)
    (h : (cfg.hostname_variable = some "vm_id" ∧ falsy vm.vmId = true) ∨
         (cfg.hostname_variable = some "public_ip" ∧ falsy vm.publicIp = true) ∨
         (cfg.hostname_variable = some "private_ip" ∧ falsy vm.privateIp = true) ∨
         (cfg.hostname_variable = some "tag_Name" ∧ falsy (tagNameHostname vm) = true)) :
    processVm cfg sink vm = ([], .ok ()) ∧
    ∀ rest, processVms cfg sink (vm :: rest) = processVms cfg sink rest := by
  have hskip : processVm cfg sink vm = ([], .ok ()) := by
    rcases h with ⟨hv, hf⟩ | ⟨hv, hf⟩ | ⟨hv, hf⟩ | ⟨hv, hf⟩
    · exact processVm_skip cfg sink vm vm.vmId (by simp [chooseHostname, hv]) hf
    · exact processVm_skip cfg sink vm vm.publicIp (by simp [chooseHostname, hv]) hf
    · exact processVm_skip cfg sink vm vm.privateIp (by simp [chooseHostname, hv]) hf
    · exact processVm_skip cfg sink vm (tagNameHostname vm) (by simp [chooseHostname, hv]) hf
  refine ⟨hskip, fun rest => ?_⟩
  rw [processVms_cons, hskip]
  rcases hrest : processVms cfg sink rest with ⟨evs2, r2⟩
  simp [applyEvents, hrest]

/-- Witness for C3: a record with no `VmId` under the `vm_id` strategy is
skipped entirely and the loop continues. -/
theorem spec_C3_total_skip_witness :
    processVm exampleCfg emptySink emptyIdVm = ([], .ok ()) ∧
    processVms exampleCfg emptySink [emptyIdVm, exampleVm] =
      processVms exampleCfg emptySink [exampleVm] := by
  have h := spec_C3_total_skip exampleCfg emptySink emptyIdVm (Or.inl ⟨rfl, rfl⟩)
  exact ⟨h.1, h.2 [exampleVm]⟩

/-- C6: tag-list flattening (the dict comprehension of lines 151-153)
takes the last value for duplicate keys, yields nothing for keys all of
whose tags lack a `Value` entry, equals the plain map of its valued pairs
when the keys are already unique, and under the `tag_Name` strategy the
hostname is the flattened dict's `Name` entry with the record id as
fallback. -/
theorem spec_C6_tag_flattening (ts : List Tag) (k : String) (cfg : ResolvedConfig)
    (vm : Vm) :
    alistGet k (flattenTags ts) = lastTagValue k ts ∧
    ((∀ t ∈ ts, t.key = k → t.value = none) → alistGet k (flattenTags ts) = none) ∧
    ((ts.map Tag.key).Nodup →
      flattenTags ts = ts.filterMap (fun t => t.value.map (fun v => (t.key, v)))) ∧
    (cfg.hostname_variable = some "tag_Name" →
      chooseHostname cfg vm =
        .ok (match lastTagValue "Name" vm.tags with
             | some v => some v
             | none => vm.vmId)) := by
  refine ⟨alistGet_flattenTags k ts, ?_, flattenTags_nodup ts, ?_⟩
  · intro h
    rw [alistGet_flattenTags]
    exact lastTagValue_none k ts h
  · intro h
    have hch : chooseHostname cfg vm = .ok (tagNameHostname vm) := by
      simp [chooseHostname, h]
    rw [hch]
    unfold tagNameHostname
    rw [alistGet_flattenTags]

/-- Witness for C6: duplicate keys resolve to the last value, unique keys
flatten to the pair list, and the `tag_Name` hostname is the `Name` tag. -/
theorem spec_C6_tag_flattening_witness :
    alistGet "a" (flattenTags [Tag.mk "a" (some "1"), Tag.mk "a" (some "2"),
      Tag.mk "b" none]) = some "2" ∧
    flattenTags [Tag.mk "Name" (some "web:1")] = [("Name", "web:1")] ∧
    chooseHostname tagNameCfg exampleVm = .ok (some "web:1") := by
  have h1 := spec_C6_tag_flattening
    [Tag.mk "a" (some "1"), Tag.mk "a" (some "2"), Tag.mk "b" none] "a"
    tagNameCfg exampleVm
  have h2 := spec_C6_tag_flattening [Tag.mk "Name" (some "web:1")] "a"
    tagNameCfg exampleVm
  refine ⟨h1.1.trans (by decide), (h2.2.2.1 (by decide)).trans (by decide),
    (h2.2.2.2 rfl).trans (by rfl)⟩

lemma chooseHostname_ok_any (cfg : ResolvedConfig) (w vm : Vm) (x : Option String)
    (h : chooseHostname cfg w = .ok x) : ∃ y, chooseHostname cfg vm = .ok y := by
  unfold chooseHostname at h ⊢
  split_ifs at h ⊢ <;> first | exact ⟨_, rfl⟩ | simp at h

lemma falsy_false_elim (y : Option String) (h : falsy y = false) :
    ∃ s, y = some s ∧ s.isEmpty = false := by
  cases y with
  | none => simp [falsy] at h
  | some s => exact ⟨s, rfl, by simpa [falsy] using h⟩

lemma processVms_error_invalid (cfg : ResolvedConfig)
    (h1 : cfg.ip_preference ≠ some "public_only")
    (h2 : cfg.ip_preference ≠ some "private_only")
    (h3 : cfg.ip_preference ≠ some "prefer_public") :
    ∀ (vms : List Vm) (sink : Sink), (∃ vm ∈ vms, resolvable cfg vm) →
      (processVms cfg sink vms).2 = .error (.ansibleError (invalidIpMsg cfg)) := by
  intro vms
  induction vms with
  | nil =>
    intro sink hex
    rcases hex with ⟨w, hw, _⟩
    cases hw
  | cons vm rest ih =>
    intro sink hex
    rcases hex with ⟨w, hw, s, hchW, hsW⟩
    obtain ⟨y, hy⟩ := chooseHostname_ok_any cfg w vm (some s) hchW
    cases hfy : falsy y with
    | false =>
      obtain ⟨s', hy', hs'⟩ := falsy_false_elim y hfy
      subst hy'
      have he := selectAnsibleHost_invalid cfg vm h1 h2 h3
      have hpv := processVm_error_shape cfg sink vm s' _ hy hs' he
      rw [processVms_cons, hpv]
    | true =>
      have hpv := processVm_skip cfg sink vm y hy hfy
      rw [processVms_cons, hpv]
      rcases List.mem_cons.mp hw with hweq | hwrest
      · subst hweq
        rw [hchW] at hy
        injection hy with hy2
        rw [← hy2] at hfy
        simp [falsy, hsW] at hfy
      · have hrec := ih sink ⟨w, hwrest, s, hchW, hsW⟩
        rcases hrest : processVms cfg sink rest with ⟨evs2, r2⟩
        rw [hrest] at hrec
        simp only at hrec
        simp [applyEvents, hrest, hrec]

/-- C1: the fallback read at line 106 is the string `public_or_private`,
which differs from the DOCUMENTATION default `prefer_public`; since it is
none of the three recognized policies, every run whose configuration
omits `ip_preference` aborts with the invalid-`ip_preference`
`AnsibleError` as soon as one fetched record has a truthy hostname. -/
theorem spec_C1_default_divergence :
    resolveIpPreference CVal.absent = some "public_or_private" ∧
    resolveIpPreference CVal.absent ≠ some documentedIpPreferenceDefault ∧
    ∀ (cfg : ResolvedConfig) (sink : Sink) (vms : List Vm),
      cfg.ip_preference = resolveIpPreference CVal.absent →
      (∃ vm ∈ vms, resolvable cfg vm) →
      (processVms cfg sink vms).2 =
        .error (.ansibleError
          "Invalid parameter value for ip_preference: public_or_private") := by
  refine ⟨rfl, by decide, ?_⟩
  intro cfg sink vms hpref hex
  have hp : cfg.ip_preference = some "public_or_private" := hpref
  have h1 : cfg.ip_preference ≠ some "public_only" := by rw [hp]; decide
  have h2 : cfg.ip_preference ≠ some "private_only" := by rw [hp]; decide
  have h3 : cfg.ip_preference ≠ some "prefer_public" := by rw [hp]; decide
  have herr := processVms_error_invalid cfg h1 h2 h3 vms sink hex
  have hmsg : invalidIpMsg cfg =
      "Invalid parameter value for ip_preference: public_or_private" := by
    rw [invalidIpMsg, hp]
    rfl
  rw [hmsg] at herr
  exact herr

/-- Witness for C1: with the fallback policy value and one resolvable
record, the run errors with the invalid-`ip_preference` message. -/
theorem spec_C1_default_divergence_witness :
    omittedIpCfg.ip_preference = resolveIpPreference CVal.absent ∧
    (processVms omittedIpCfg emptySink [exampleVm]).2 =
      .error (.ansibleError
        "Invalid parameter value for ip_preference: public_or_private") := by
  refine ⟨rfl, ?_⟩
  exact spec_C1_default_divergence.2.2 omittedIpCfg emptySink [exampleVm] rfl
    ⟨exampleVm, List.mem_cons_self _ _, "i-1", rfl, rfl⟩

lemma processVms_skipped (cfg : ResolvedConfig) :
    ∀ (vms : List Vm) (sink : Sink), (∀ vm ∈ vms, skipped cfg vm) →
      processVms cfg sink vms = ([], .ok ()) := by
  intro vms
  induction vms with
  | nil => intro sink _; rfl
  | cons vm rest ih =>
    intro sink h
    obtain ⟨hn, hch, hf⟩ := h vm (List.mem_cons_self _ _)
    have hpv := processVm_skip cfg sink vm hn hch hf
    rw [processVms_cons, hpv]
    have hrest := ih sink (fun v hv => h v (List.mem_cons_of_mem _ hv))
    simp [applyEvents, hrest]

lemma applyEvents_append (s : Sink) (xs ys : List Event) :
    applyEvents s (xs ++ ys) = applyEvents (applyEvents s xs) ys :=
  List.foldl_append _ _ _ _

lemma processVms_append (cfg : ResolvedConfig) :
    ∀ (l1 : List Vm) (sink : Sink) (l2 : List Vm),
      processVms cfg sink (l1 ++ l2) =
        match processVms cfg sink l1 with
        | (evs, .error e) => (evs, .error e)
        | (evs, .ok _) =>
          match processVms cfg (applyEvents sink evs) l2 with
          | (evs2, r2) => (evs ++ evs2, r2) := by
  intro l1
  induction l1 with
  | nil =>
    intro sink l2
    rcases h : processVms cfg sink l2 with ⟨evs2, r2⟩
    simp [processVms, applyEvents, h]
  | cons v l1 ih =>
    intro sink l2
    rw [List.cons_append, processVms_cons cfg sink v (l1 ++ l2),
      processVms_cons cfg sink v l1]
    rcases hpv : processVm cfg sink v with ⟨evs, r⟩
    cases r with
    | error e => rfl
    | ok u =>
      dsimp only
      rw [ih (applyEvents sink evs) l2]
      rcases h1 : processVms cfg (applyEvents sink evs) l1 with ⟨evs1, r1⟩
      cases r1 with
      | error e => rfl
      | ok u1 =>
        dsimp only
        simp only [applyEvents_append]
        rcases h2 : processVms cfg (applyEvents (applyEvents sink evs) evs1) l2
          with ⟨evs2, r2⟩
        simp [List.append_assoc]

/-- C5: an `ip_preference` outside the three recognized policies is not
pre-validated: records whose hostname source is falsy are processed
normally (skipped), the run aborts with the fatal `AnsibleError` at the
first record with a truthy hostname, and the records after it are never
processed. -/
theorem spec_C5_first_record_abort (cfg : ResolvedConfig) (sink : Sink)
    (pre post : List Vm) (vm : Vm) (s : String)
    (h1 : cfg.ip_preference ≠ some "public_only")
    (h2 : cfg.ip_preference ≠ some "private_only")
    (h3 : cfg.ip_preference ≠ some "prefer_public")
    (hpre : ∀ v ∈ pre, skipped cfg v)
    (hch : chooseHostname cfg vm = .ok (some s))
    (hs : s.isEmpty = false) :
    processVms cfg sink pre = ([], .ok ()) ∧
    processVms cfg sink (pre ++ vm :: post) =
      ([Event.addHost s], .error (.ansibleError (invalidIpMsg cfg))) ∧
    processVms cfg sink (pre ++ vm :: post) = processVms cfg sink (pre ++ [vm]) := by
  have hpre0 := processVms_skipped cfg pre sink hpre
  have he := selectAnsibleHost_invalid cfg vm h1 h2 h3
  have hpv := processVm_error_shape cfg sink vm s _ hch hs he
  have hvm : ∀ post' : List Vm, processVms cfg sink (pre ++ vm :: post') =
      ([Event.addHost s], .error (.ansibleError (invalidIpMsg cfg))) := by
    intro post'
    have hcons : processVms cfg sink (vm :: post') =
        ([Event.addHost s], .error (.ansibleError (invalidIpMsg cfg))) := by
      rw [processVms_cons, hpv]
    rw [processVms_append cfg pre sink (vm :: post'), hpre0]
    simp [applyEvents, hcons]
  exact ⟨hpre0, hvm post, (hvm post).trans (hvm []).symm⟩

/-- Witness for C5: a falsy-hostname record is skipped, the next record
aborts the run, and trailing records change nothing. -/
theorem spec_C5_first_record_abort_witness :
    processVms omittedIpCfg emptySink [emptyIdVm] = ([], .ok ()) ∧
    processVms omittedIpCfg emptySink [emptyIdVm, exampleVm, exampleVm] =
      processVms omittedIpCfg emptySink [emptyIdVm, exampleVm] := by
  have h := spec_C5_first_record_abort omittedIpCfg emptySink [emptyIdVm]
    [exampleVm] exampleVm "i-1" (by decide) (by decide) (by decide)
    (by
      intro v hv
      have hv' : v = emptyIdVm := by simpa using hv
      subst hv'
      exact ⟨none, rfl, rfl⟩)
    rfl rfl
  exact ⟨h.1, h.2.2⟩

lemma sanitize_chars (v : String) :
    (sanitizeTagValue v).data =
      v.data.map (fun c => if c = ':' ∨ c = '/' ∨ c = ' ' then '_' else c) := by
  have hmk : (sanitizeTagValue v).data =
      replaceChar ' ' '_' (replaceChar '/' '_' (replaceChar ':' '_' v.data)) := rfl
  rw [hmk]
  unfold replaceChar
  rw [List.map_map, List.map_map]
  congr 1
  funext c
  by_cases h1 : c = ':'
  · subst h1
    decide
  · by_cases h2 : c = '/'
    · subst h2
      decide
    · by_cases h3 : c = ' '
      · subst h3
        decide
      · simp [Function.comp, h1, h2, h3]

lemma mem_tagGroupEvents (vm : Vm) (s : String) (kv : String × String)
    (hkv : kv ∈ flattenTags vm.tags) :
    Event.addGroup ("tag_" ++ kv.1 ++ "_" ++ sanitizeTagValue kv.2) ∈
      tagGroupEvents vm s ∧
    Event.addChild ("tag_" ++ kv.1 ++ "_" ++ sanitizeTagValue kv.2) s ∈
      tagGroupEvents vm s := by
  unfold tagGroupEvents
  constructor <;>
  · rw [List.mem_flatten]
    exact ⟨_, List.mem_map_of_mem _ hkv, by simp⟩

/-- C7: sanitization (line 197) is exactly the character map replacing
`:`, `/` and the space with `_` and leaving every other character alone;
for every entry of the flattened tag dict, the `tags` dimension mutates
the group named `tag_<key>_<sanitized value>` (key unsanitized), and the
host is added under the raw, unsanitized hostname. -/
theorem spec_C7_sanitization (v : String) (cfg : ResolvedConfig) (sink : Sink)
    (vm : Vm) (s : String) (ah : Option String)
    (hch : chooseHostname cfg vm = .ok (some s))
    (hs : s.isEmpty = false)
    (hah : selectAnsibleHost cfg vm = .ok ah)
    (htags : "tags" ∈ cfg.group_by) :
    (sanitizeTagValue v).data =
      v.data.map (fun c => if c = ':' ∨ c = '/' ∨ c = ' ' then '_' else c) ∧
    (∀ kv ∈ flattenTags vm.tags,
      Event.addGroup ("tag_" ++ kv.1 ++ "_" ++ sanitizeTagValue kv.2) ∈
        (processVm cfg sink vm).1 ∧
      Event.addChild ("tag_" ++ kv.1 ++ "_" ++ sanitizeTagValue kv.2) s ∈
        (processVm cfg sink vm).1) ∧
    Event.addHost s ∈ (processVm cfg sink vm).1 := by
  have hshape := processVm_ok_shape cfg sink vm s ah hch hs hah
  refine ⟨sanitize_chars v, ?_, ?_⟩
  · intro kv hkv
    have hmem := mem_tagGroupEvents vm s kv hkv
    have hsub : ∀ e : Event, e ∈ tagGroupEvents vm s → e ∈ (processVm cfg sink vm).1 := by
      intro e he
      rw [hshape]
      simp only [List.mem_append]
      refine Or.inr ?_
      unfold dimGroupEvents
      simp only [List.mem_append]
      refine Or.inl (Or.inl (Or.inl (Or.inl ?_)))
      rw [if_pos htags]
      exact he
    exact ⟨hsub _ hmem.1, hsub _ hmem.2⟩
  · rw [hshape]
    simp [mapperEvents]

/-- Witness for C7 on the spec's section-8 example record: the tag value
`web:1` sanitizes to `web_1` in the group name while the host keeps its
raw hostname. -/
theorem spec_C7_sanitization_witness :
    (sanitizeTagValue "web:1").data = "web_1".data ∧
    Event.addGroup "tag_Name_web_1" ∈ (processVm exampleCfg emptySink exampleVm).1 ∧
    Event.addHost "i-1" ∈ (processVm exampleCfg emptySink exampleVm).1 := by
  have h := spec_C7_sanitization "web:1" exampleCfg emptySink exampleVm "i-1"
    (some "1.2.3.4") rfl rfl rfl (by decide)
  have hkv := h.2.1 ("Name", "web:1") (by decide)
  have hname : ("tag_" ++ ("Name", "web:1").1 ++ "_" ++
      sanitizeTagValue ("Name", "web:1").2) = "tag_Name_web_1" := by decide
  refine ⟨h.1.trans (by decide), ?_, h.2.2⟩
  rw [← hname]
  exact hkv.1

lemma mem_dimGroupEvents_group (cfg : ResolvedConfig) (vm : Vm) (s : String) :
    ∀ e ∈ dimGroupEvents cfg vm s, isGroupMutationEvent e = true := by
  intro e he
  unfold dimGroupEvents at he
  simp only [List.mem_append] at he
  rcases he with ((((he | he) | he) | he) | he)
  · split_ifs at he with hc
    · unfold tagGroupEvents at he
      rw [List.mem_flatten] at he
      obtain ⟨l, hl, hel⟩ := he
      obtain ⟨kv, _, rfl⟩ := List.mem_map.mp hl
      simp only [List.mem_cons, List.not_mem_nil, or_false] at hel
      rcases hel with rfl | rfl <;> rfl
    · cases he
  · split_ifs at he with hc
    · simp only [List.mem_cons, List.not_mem_nil, or_false] at he
      rcases he with rfl | rfl <;> rfl
    · cases he
  · split_ifs at he with hc
    · simp only [List.mem_cons, List.not_mem_nil, or_false] at he
      rcases he with rfl | rfl <;> rfl
    · cases he
  · split_ifs at he with hc
    · simp only [List.mem_cons, List.not_mem_nil, or_false] at he
      rcases he with rfl | rfl <;> rfl
    · cases he
  · split_ifs at he with hc
    · simp only [List.mem_cons, List.not_mem_nil, or_false] at he
      rcases he with rfl | rfl <;> rfl
    · cases he

lemma mem_mapperEvents_kind (vm : Vm) (s : String) (ah : Option String) :
    ∀ e ∈ mapperEvents vm s ah,
      isConstructableEvent e = false ∧ isGroupMutationEvent e = false := by
  intro e he
  unfold mapperEvents ansibleHostEvents attrVarEvents at he
  split_ifs at he <;>
    (simp only [List.cons_append, List.nil_append, List.mem_cons,
      List.not_mem_nil, or_false] at he
     rcases he with rfl | he <;>
       first
         | exact ⟨rfl, rfl⟩
         | (rcases he with rfl | rfl | rfl | rfl | rfl | rfl <;> exact ⟨rfl, rfl⟩)
         | (rcases he with rfl | rfl | rfl | rfl | rfl <;> exact ⟨rfl, rfl⟩))

lemma group_event_not_constructable (e : Event) (h : isGroupMutationEvent e = true) :
    isConstructableEvent e = false := by
  cases e <;> first | rfl | (exact absurd h (by simp [isGroupMutationEvent]))

/-- C2 counterexample: on the spec's example record with every grouping
dimension enabled, the trace of one record places the three
`Constructable` calls at positions 7-9 and every dimension-grouping
mutation at positions 10 and later; a `Constructable` call (position 7)
strictly precedes a grouping mutation (position 10), so the two
orchestrator-generic features do not run after the dimension-based
grouping as the claim states — they run before it. -/
theorem spec_C2_counterexample :
    (((processVm exampleCfg emptySink exampleVm).1.take 10).all
      (fun e => !isGroupMutationEvent e)) = true ∧
    (((processVm exampleCfg emptySink exampleVm).1.drop 10).all
      (fun e => !isConstructableEvent e)) = true ∧
    isConstructableEvent
      ((processVm exampleCfg emptySink exampleVm).1.getD 7 (Event.addHost "")) = true ∧
    isGroupMutationEvent
      ((processVm exampleCfg emptySink exampleVm).1.getD 10 (Event.addHost "")) = true ∧
    (7 : Nat) < 10 := by
  refine ⟨?_, ?_, ?_, ?_, by decide⟩ <;> rfl

/-- C2 amended: for every record that is not skipped and has a valid
address policy, the per-record trace is the Mapper's host/variable writes,
then the three `Constructable` calls — receiving exactly the attribute
map read back after the Mapper's writes (`mapperHostVars`) — and then all
dimension-based grouping mutations: the generic features run before (not
after) the dimension-based grouping. -/
theorem spec_C2_amended (cfg : ResolvedConfig) (sink : Sink) (vm : Vm) (s : String)
    (ah : Option String)
    (hch : chooseHostname cfg vm = .ok (some s))
    (hs : s.isEmpty = false)
    (hah : selectAnsibleHost cfg vm = .ok ah) :
    ∃ pre,
      (processVm cfg sink vm).1 =
        pre ++ constructableEvents cfg s (mapperHostVars sink vm s ah) ++
          dimGroupEvents cfg vm s ∧
      (∀ e ∈ pre, isConstructableEvent e = false ∧ isGroupMutationEvent e = false) ∧
      (∀ e ∈ dimGroupEvents cfg vm s,
        isGroupMutationEvent e = true ∧ isConstructableEvent e = false) := by
  refine ⟨mapperEvents vm s ah, ?_, mem_mapperEvents_kind vm s ah, ?_⟩
  · exact congrArg Prod.fst (processVm_ok_shape cfg sink vm s ah hch hs hah)
  · intro e he
    have hg := mem_dimGroupEvents_group cfg vm s e he
    exact ⟨hg, group_event_not_constructable e hg⟩

/-- Witness for C2 (amended) on the example configuration and record. -/
theorem spec_C2_amended_witness :
    ∃ pre,
      (processVm exampleCfg emptySink exampleVm).1 =
        pre ++ constructableEvents exampleCfg "i-1"
          (mapperHostVars emptySink exampleVm "i-1" (some "1.2.3.4")) ++
          dimGroupEvents exampleCfg exampleVm "i-1" ∧
      (∀ e ∈ pre, isConstructableEvent e = false ∧ isGroupMutationEvent e = false) ∧
      (∀ e ∈ dimGroupEvents exampleCfg exampleVm "i-1",
        isGroupMutationEvent e = true ∧ isConstructableEvent e = false) :=
  spec_C2_amended exampleCfg emptySink exampleVm "i-1" (some "1.2.3.4") rfl rfl rfl

end OscInventory
